import Mathlib

/-!
Verification of the rpstrength-export aggregation and rendering pipeline
(`rpstrength.py`) against its specification.

The Python source is shallowly embedded: JSON objects become structures,
Python `defaultdict`s become total functions with the default value, the
single pass of `summarize_exercises` becomes a left fold over the nested
mesocycle structure, and runtime exceptions (`KeyError` from subscripting a
string-keyed dict with an int) are modelled as `Option` with `none` for the
exceptional case.  Numeric set fields are modelled as `Int` (`weight` and
`reps` are nullable, hence `Option Int`).
-/

namespace RPStrength

/-- A logged set: `{weight: number|null, reps: number|null}`. -/
structure SetEntry where
  weight : Option Int
  reps : Option Int
deriving DecidableEq, Repr

/-- A raw mesocycle exercise entry.  `muscleGroupId` is the entry-level field
read by `build_summary_chart_block`; the per-day renderer instead reads the
muscle group from the exercise lookup. -/
structure ExerciseEntry where
  exerciseId : Int
  muscleGroupId : Option Int
  sets : List SetEntry
deriving DecidableEq, Repr

/-- A training day: label, position, optional finish timestamp, exercises. -/
structure Day where
  label : String
  position : Int
  finishedAt : Option String
  exercises : List ExerciseEntry
deriving DecidableEq, Repr

/-- A training week, an ordered list of days. -/
structure Week where
  days : List Day
deriving DecidableEq, Repr

/-- A mesocycle: `{name, weeks}` (the `key` field plays no role in the
aggregation or rendering and is omitted). -/
structure Meso where
  name : String
  weeks : List Week
deriving DecidableEq, Repr

/-- The max-effort record stored by `summarize_exercises`:
`defaultdict(lambda: {"weight": 0, "reps": 0})`.  The stored weight is always
an actual number (the guard only stores non-null weights), the stored reps is
copied verbatim from the set and may be null. -/
structure MaxEffort where
  weight : Int
  reps : Option Int
deriving DecidableEq, Repr

/-- The three accumulators of `summarize_exercises`.
`weekly` models `exercise_weekly[key][week]["sets"]` (default 0),
`maxEff` models `exercise_max_effort[key]` (default `{weight: 0, reps: 0}`),
`dayMap` models `day_exercise_map[label]` (default `[]`).  A label is a key
of the Python `defaultdict` iff its list is nonempty (the list is only ever
created together with a first append). -/
structure Summary where
  weekly : String × Int → Nat → Nat
  maxEff : String × Int → MaxEffort
  dayMap : String → List Int

/-- `exercise_weekly[key][week_index]["sets"] += 1`. -/
def bumpWeekly (f : String × Int → Nat → Nat) (key : String × Int) (w : Nat) :
    String × Int → Nat → Nat :=
  fun k v => if k = key ∧ v = w then f k v + 1 else f k v

/-- `exercise_max_effort[key] = {"weight": ..., "reps": ...}`. -/
def setMax (f : String × Int → MaxEffort) (key : String × Int) (m : MaxEffort) :
    String × Int → MaxEffort :=
  fun k => if k = key then m else f k

/-- Body of the innermost loop of `summarize_exercises` (lines 35-39):
a set with null weight is skipped entirely; otherwise the weekly counter is
bumped and the max-effort record replaced when the weight is strictly
greater. -/
def procSet (key : String × Int) (w : Nat) (st : Summary) (s : SetEntry) : Summary :=
  match s.weight with
  | none => st
  | some wt =>
      let st' := { st with weekly := bumpWeekly st.weekly key w }
      if (st'.maxEff key).weight < wt then
        { st' with maxEff := setMax st'.maxEff key ⟨wt, s.reps⟩ }
      else st'

/-- Per-exercise step (lines 32-41): fold the sets, then record the
exercise under the day label on first encounter. -/
def procExercise (label : String) (w : Nat) (st : Summary) (e : ExerciseEntry) : Summary :=
  let key := (label, e.exerciseId)
  let st' := e.sets.foldl (procSet key w) st
  if e.exerciseId ∈ st'.dayMap label then st'
  else { st' with
          dayMap := fun l => if l = label then st'.dayMap l ++ [e.exerciseId] else st'.dayMap l }

/-- Per-day step (lines 30-41). -/
def procDay (w : Nat) (st : Summary) (d : Day) : Summary :=
  d.exercises.foldl (procExercise d.label w) st

/-- Per-week step; the week index is the 1-based `enumerate` index. -/
def procWeek (st : Summary) (p : Nat × Week) : Summary :=
  p.2.days.foldl (procDay p.1) st

/-- Initial accumulator state: all three `defaultdict`s empty. -/
def initSummary : Summary :=
  { weekly := fun _ _ => 0, maxEff := fun _ => ⟨0, some 0⟩, dayMap := fun _ => [] }

/-- `summarize_exercises` (lines 23-43): a single pass over
`enumerate(meso_data["weeks"], start=1)`. -/
def summarize_exercises (m : Meso) : Summary :=
  (List.enumFrom 1 m.weeks).foldl procWeek initSummary

/-- The weekly set-count vector exactly as the renderer reads it off
(line 186): `[exercise_weekly[key][w]["sets"] for w in range(1, N + 1)]`. -/
def weekly_counts_vector (m : Meso) (key : String × Int) : List Nat :=
  (List.range' 1 m.weeks.length).map (fun w => (summarize_exercises m).weekly key w)

/-- Number of sets of `e` with non-null weight. -/
def weightedSets (e : ExerciseEntry) : Nat :=
  (e.sets.filter (fun s => s.weight.isSome)).length

/-- Specification-level count: the number of non-null-weight sets recorded in
week `w` under day label `label` for exercise `exid`. -/
def weightedSetCount (m : Meso) (label : String) (exid : Int) (w : Nat) : Nat :=
  ((List.enumFrom 1 m.weeks).map (fun p =>
    (p.2.days.map (fun d =>
      (d.exercises.map (fun e =>
        if d.label = label ∧ e.exerciseId = exid ∧ p.1 = w then weightedSets e else 0)).sum)).sum)).sum

/-- Drop the null-weight sets of one exercise entry. -/
def dropNullWeightSetsEx (e : ExerciseEntry) : ExerciseEntry :=
  { e with sets := e.sets.filter (fun s => s.weight.isSome) }

/-- Drop the null-weight sets of every exercise of one day. -/
def dropNullWeightSetsDay (d : Day) : Day :=
  { d with exercises := d.exercises.map dropNullWeightSetsEx }

/-- Drop the null-weight sets of every day of one week. -/
def dropNullWeightSetsWeek (wk : Week) : Week :=
  ⟨wk.days.map dropNullWeightSetsDay⟩

/-- The same mesocycle with every null-weight set removed. -/
def dropNullWeightSets (m : Meso) : Meso :=
  { m with weeks := m.weeks.map dropNullWeightSetsWeek }

/-- `weekly_sets[week_index][muscle_group] += 1`, the inner increment of
`build_summary_chart_block` (line 125). -/
def bumpChart (f : Nat → Int → Nat) (w : Nat) (g : Int) : Nat → Int → Nat :=
  fun v h => if v = w ∧ h = g then f v h + 1 else f v h

/-- Per-entry step of `build_summary_chart_block` (lines 120-125): an entry
whose own `muscleGroupId` is absent or null is skipped with `continue`;
otherwise every one of its sets bumps the `(week, group)` cell, with no check
on the set's weight. -/
def chartExercise (w : Nat) (f : Nat → Int → Nat) (e : ExerciseEntry) : Nat → Int → Nat :=
  match e.muscleGroupId with
  | none => f
  | some g => e.sets.foldl (fun acc _ => bumpChart acc w g) f

/-- Per-day step of the chart aggregation. -/
def chartDay (w : Nat) (f : Nat → Int → Nat) (d : Day) : Nat → Int → Nat :=
  d.exercises.foldl (chartExercise w) f

/-- Per-week step of the chart aggregation; `w` is the 1-based week index. -/
def chartWeek (f : Nat → Int → Nat) (p : Nat × Week) : Nat → Int → Nat :=
  p.2.days.foldl (chartDay p.1) f

/-- The `weekly_sets` table of `build_summary_chart_block` (lines 117-125),
as a total function with the `defaultdict(int)` default `0` (which is also
what `.fillna(0)` yields for absent cells). -/
def weekly_sets (weeks : List Week) : Nat → Int → Nat :=
  (List.enumFrom 1 weeks).foldl chartWeek (fun _ _ => 0)

/-- Specification-level chart count: the total number of sets (with no
condition on their weight) of week-`w` entries whose own `muscleGroupId`
field is `g`. -/
def chartSetCount (weeks : List Week) (w : Nat) (g : Int) : Nat :=
  ((List.enumFrom 1 weeks).map (fun p =>
    (p.2.days.map (fun d =>
      (d.exercises.map (fun e =>
        if e.muscleGroupId = some g ∧ p.1 = w then e.sets.length else 0)).sum)).sum)).sum

/-- Rewrite one set's weight by `f`. -/
def mapSetWeightsSet (f : Option Int → Option Int) (s : SetEntry) : SetEntry :=
  { s with weight := f s.weight }

/-- Rewrite the weight of every set of one exercise entry by `f`. -/
def mapSetWeightsEx (f : Option Int → Option Int) (e : ExerciseEntry) : ExerciseEntry :=
  { e with sets := e.sets.map (mapSetWeightsSet f) }

/-- Rewrite the weight of every set of one day by `f`. -/
def mapSetWeightsDay (f : Option Int → Option Int) (d : Day) : Day :=
  { d with exercises := d.exercises.map (mapSetWeightsEx f) }

/-- Rewrite the weight of every set of one week by `f`. -/
def mapSetWeightsWeek (f : Option Int → Option Int) (wk : Week) : Week :=
  ⟨wk.days.map (mapSetWeightsDay f)⟩

/-- Rewrite the weight of every set of a list of weeks by `f`. -/
def mapSetWeights (f : Option Int → Option Int) (weeks : List Week) : List Week :=
  weeks.map (mapSetWeightsWeek f)

/-- Remove every exercise entry of one day whose own `muscleGroupId` is
absent/null. -/
def dropNullMGEntriesDay (d : Day) : Day :=
  { d with exercises := d.exercises.filter (fun e => e.muscleGroupId.isSome) }

/-- Remove every exercise entry of one week whose own `muscleGroupId` is
absent/null. -/
def dropNullMGEntriesWeek (wk : Week) : Week :=
  ⟨wk.days.map dropNullMGEntriesDay⟩

/-- Remove every exercise entry whose own `muscleGroupId` is absent/null. -/
def dropNullMGEntries (weeks : List Week) : List Week :=
  weeks.map dropNullMGEntriesWeek

/-- The muscle-group map value: either the dense list representation (the
built-in default, or a JSON array) or the sparse mapping representation (a
JSON object, whose keys are necessarily strings after `json.load`). -/
inductive MGMap where
  | dense : List String → MGMap
  | sparse : List (String × String) → MGMap
deriving DecidableEq, Repr

/-- Python `len` of the map (list length, or number of dict keys; the entries
of a dict model are assumed key-distinct, as `json.load` guarantees). -/
def mgLen : MGMap → Nat
  | .dense l => l.length
  | .sparse kvs => kvs.length

/-- Python `muscle_group_map[i]` with an `int` subscript.  A list index wraps
once for negative values and raises `IndexError` out of range; an `int`
subscript of a string-keyed dict always raises `KeyError`.  Exceptions are
modelled as `none`. -/
def pySubscript : MGMap → Int → Option String
  | .dense l, i =>
      if 0 ≤ i then l.get? i.toNat
      else if 0 ≤ i + l.length then l.get? (i + (l.length : Int)).toNat
      else none
  | .sparse _, _ => none

/-- Python `str` of a nullable int: `str(None) = "None"`. -/
def pyOptIntStr : Option Int → String
  | none => "None"
  | some i => toString i

/-- The muscle-group label expression, textually shared by line 100 of
`format_training_day` and lines 128-129 of `build_summary_chart_block`:
`muscle_group_map[mg_id - 1] if mg_id and 0 < mg_id <= len(muscle_group_map)
else f"[[MuscleGroup {mg_id}]]"`.  (For an `int` the truthiness test
`mg_id and ...` only excludes `0`, which `0 < mg_id` excludes as well.) -/
def mg_label (mgm : MGMap) (mg_id : Option Int) : Option String :=
  match mg_id with
  | none => some ("[[MuscleGroup " ++ pyOptIntStr none ++ "]]")
  | some i =>
      if 0 < i ∧ i ≤ (mgLen mgm : Int) then pySubscript mgm (i - 1)
      else some ("[[MuscleGroup " ++ pyOptIntStr (some i) ++ "]]")

/-- The built-in `DEFAULT_MUSCLE_GROUP_MAP` (lines 17-21). -/
def DEFAULT_MUSCLE_GROUP_MAP : List String :=
  ["[[Chest]]", "[[Back]]", "[[Delts]]", "[[Biceps]]",
   "[[Triceps]]", "[[Quads]]", "[[Hamstrings]]", "[[Glutes]]",
   "[[Calves]]", "[[Traps]]", "[[Forearms]]", "[[Abs]]"]

/-- Modelled from the spec: the lookup policy the spec prescribes for the
sparse mapping representation — "when the map is a sparse mapping, look up by
string/int key directly".  Stated for comparison with `mg_label`; it is not
how the source behaves. -/
def specDirectKeyLookup (kvs : List (String × String)) (i : Int) : Option String :=
  List.lookup (toString i) kvs

/-- One entry of the exercise lookup built by `load_exercise_lookup`
(lines 84-90): every record carries a name, a possibly-null muscle group id,
and an equipment label. -/
structure ExInfo where
  name : String
  muscle_group_id : Option Int
  equipment : String
deriving DecidableEq, Repr

/-- One row of the per-day Weight|Reps table (line 108):
`f"| {exercise_set['weight']} | {exercise_set['reps']} |\n"`. -/
def setRow (s : SetEntry) : String :=
  "| " ++ pyOptIntStr s.weight ++ " | " ++ pyOptIntStr s.reps ++ " |\n"

/-- One exercise block of a day section (lines 97-110). -/
def exercise_block (lookup : List (Int × ExInfo)) (mgm : MGMap) (e : ExerciseEntry) :
    Option String :=
  let info := List.lookup e.exerciseId lookup
  let mg_id := info.bind ExInfo.muscle_group_id
  (mg_label mgm mg_id).map (fun muscle_group =>
    let exercise_name := (info.map ExInfo.name).getD ("Exercise " ++ toString e.exerciseId)
    let equipment_type := (info.map ExInfo.equipment).getD "Unknown"
    "### " ++ muscle_group ++ " — [[" ++ exercise_name ++ "]]\n\n[[" ++
      equipment_type ++ "]]\n\n" ++ "| Weight | Reps |\n| ------ | ---- |\n" ++
      String.join (e.sets.map setRow) ++ "\n")

/-- `format_training_day` (lines 92-113).  `week_index` is the 0-based index
the caller passes; a `KeyError` escaping from the muscle-group subscript is
modelled as `none`. -/
def format_training_day (day : Day) (week_index : Nat)
    (lookup : List (Int × ExInfo)) (mgm : MGMap) : Option String :=
  let date_str :=
    match day.finishedAt with
    | some s => if s = "" then "TBD" else s.take 10
    | none => "TBD"
  let header := "## Week " ++ toString (week_index + 1) ++ " - Day " ++
    toString (day.position + 1) ++ " - " ++ day.label ++ " ([[" ++ date_str ++ "]])\n\n"
  (day.exercises.mapM (exercise_block lookup mgm)).map (fun blocks =>
    header ++ String.join blocks ++ "---\n\n")

/-- Python string repetition `s * n`. -/
def strRepeat (n : Nat) (s : String) : String :=
  String.join (List.replicate n s)

/-- The fixed weekday order of the summary table (line 179). -/
def WEEKDAY_ORDER : List String :=
  ["Monday", "Tuesday", "Wednesday", "Thursday", "Friday", "Saturday", "Sunday"]

/-- One data row of the exercise summary table (lines 185-193).  The stored
max-effort weight is always an actual number in the model (only non-null
weights are stored), so the `is not None` guard of line 190 is always true
and the cell is `str(weight)`; the reps cell is blanked when null or
negative (line 191). -/
def summary_row (m : Meso) (lookup : List (Int × ExInfo)) (day_label : String)
    (ex_id : Int) : String :=
  let weekly_counts := weekly_counts_vector m (day_label, ex_id)
  let total_sets := weekly_counts.sum
  let max_data := (summarize_exercises m).maxEff (day_label, ex_id)
  let name := ((List.lookup ex_id lookup).map ExInfo.name).getD
    ("Exercise " ++ toString ex_id)
  let max_weight := toString max_data.weight
  let max_reps :=
    match max_data.reps with
    | some r => if 0 ≤ r then toString r else ""
    | none => ""
  "| " ++ String.intercalate " | "
    (("[[" ++ name ++ "]]") ::
      (weekly_counts.map toString ++ [toString total_sets, max_weight, max_reps])) ++ " |"

/-- The `## Exercise Summary` block of `generate_mesocycle_markdown`
(lines 174-193), as its list of lines. -/
def summary_lines (m : Meso) (lookup : List (Int × ExInfo)) : List String :=
  let week_labels := (List.range' 1 m.weeks.length).map (fun w => "W" ++ toString w)
  let headers := "Exercise" :: (week_labels ++ ["Total", "Max Weight", "Max Reps"])
  let s := summarize_exercises m
  ["## Exercise Summary", "",
   "| " ++ String.intercalate " | " headers ++ " |",
   "|" ++ String.intercalate " | " (headers.map (fun _ => "---")) ++ " |"] ++
  ((WEEKDAY_ORDER.filter (fun d => !(s.dayMap d).isEmpty)).map (fun day_label =>
    ("| **" ++ day_label ++ "** " ++ strRepeat (headers.length - 1) " |" ++ " |") ::
      (s.dayMap day_label).map (summary_row m lookup day_label))).flatten

/-- Whether a week inserts any key into `weekly_sets` (some entry with a
non-null `muscleGroupId` and at least one set). -/
def weekHasChartSets (wk : Week) : Bool :=
  wk.days.any (fun d => d.exercises.any (fun e => e.muscleGroupId.isSome && !e.sets.isEmpty))

/-- The chart table's week columns: the keys of the outer `weekly_sets` dict
in insertion order — the ascending week indices with at least one counted
set (these become the DataFrame columns). -/
def chart_week_columns (weeks : List Week) : List Nat :=
  ((List.enumFrom 1 weeks).filter (fun p => weekHasChartSets p.2)).map Prod.fst

/-- Append a group id on first appearance. -/
def insertGroup (acc : List Int) (g : Int) : List Int :=
  if g ∈ acc then acc else acc ++ [g]

/-- The chart table's muscle-group rows: the group ids in order of first
appearance with a counted set (modelling the DataFrame index formed from the
union of the inner dict keys). -/
def chart_group_rows (weeks : List Week) : List Int :=
  weeks.foldl (fun acc wk =>
    wk.days.foldl (fun acc d =>
      d.exercises.foldl (fun acc e =>
        match e.muscleGroupId with
        | some g => if e.sets.isEmpty then acc else insertGroup acc g
        | none => acc) acc) acc) []

/-- The fixed 10-colour palette (lines 137-140). -/
def COLORS : List String :=
  ["#1f77b4", "#ff7f0e", "#2ca02c", "#d62728", "#9467bd",
   "#8c564b", "#e377c2", "#7f7f7f", "#bcbd22", "#17becf"]

/-- One data row of the chart table (lines 133-135), labelled via
`mg_label`; the cell values are the `weekly_sets` counts (with `.fillna(0)`
for absent cells, which the total-function model already yields). -/
def chart_row (weeks : List Week) (cols : List Nat) (mgm : MGMap) (g : Int) :
    Option String :=
  (mg_label mgm (some g)).map (fun label =>
    "| " ++ String.intercalate " | "
      (label :: cols.map (fun w => toString (weekly_sets weeks w g))) ++ " |")

/-- One fenced chart-definition block (lines 142-156), colour cycled by row
index modulo the palette size. -/
def chart_block_for (label : String) (idx : Nat) : String :=
  let color := COLORS.getD (idx % COLORS.length) ""
  String.intercalate "\n"
    ["```chart", "type: bar", "id: table",
     "title: \"" ++ label ++ "\"",
     "select: [\"" ++ label ++ "\"]",
     "layout: rows", "width: 80%", "beginAtZero: true",
     "color: \"" ++ color ++ "\"", "showDataLabels: true", "```"]

/-- `build_summary_chart_block` (lines 115-158): the Markdown table, the
`^table` anchor, the `## Summary` heading and one chart block per muscle
row.  A `KeyError` from `mg_label` on a sparse map is modelled as `none`. -/
def build_summary_chart_block (weeks : List Week) (mgm : MGMap) : Option String :=
  let cols := chart_week_columns weeks
  let rows := chart_group_rows weeks
  let table_header :=
    "| Muscle | " ++ String.intercalate " | " (cols.map (fun w => "W" ++ toString w)) ++ " |"
  let table_sep := "|" ++ strRepeat (cols.length + 1) "--------|"
  (rows.mapM (chart_row weeks cols mgm)).bind (fun row_lines =>
    (rows.mapM (fun g => mg_label mgm (some g))).map (fun (labels : List String) =>
      let chart_blocks := labels.enum.map (fun p => chart_block_for p.2 p.1)
      String.intercalate "\n"
        (([table_header, table_sep] ++ row_lines ++ ["^table"]) ++
          ["\n## Summary\n"] ++ chart_blocks)))

/-- `frontmatter_template.format(title=..., created=..., updated=...,
source=...)` (lines 164-169), modelled as placeholder replacement. -/
def frontmatterOf (tmpl title created updated source_filename : String) : String :=
  (((tmpl.replace "{title}" title).replace "{created}" created).replace
    "{updated}" updated).replace "{source}" source_filename

/-- The concatenation of all per-day sections in `(week, day)` order
(lines 198-200); `enumerate` here is 0-based. -/
def daySections (m : Meso) (lookup : List (Int × ExInfo)) (mgm : MGMap) : Option String :=
  (m.weeks.enum.mapM (fun (p : Nat × Week) =>
    (p.2.days.mapM (fun d => format_training_day d p.1 lookup mgm)).map
      String.join)).map String.join

/-- `generate_mesocycle_markdown` (lines 160-202), with the clock — the
already-formatted `datetime.now(UTC).strftime("%Y-%m-%d %H:%M UTC")` string
— passed explicitly as `now`. -/
def generate_mesocycle_markdown (m : Meso) (source_filename : String)
    (lookup : List (Int × ExInfo)) (tmpl : String) (mgm : MGMap) (now : String) :
    Option String :=
  let mesocycle_title := m.name.replace " " "_"
  let frontmatter := frontmatterOf tmpl mesocycle_title now now source_filename
  (build_summary_chart_block m.weeks mgm).bind (fun chart_summary =>
    (daySections m lookup mgm).map (fun days =>
      frontmatter ++ "\n\n" ++ String.intercalate "\n" (summary_lines m lookup) ++
        "\n\n" ++ chart_summary ++ "\n" ++ days))

/-- The collision candidate `f"{base_path.stem} ({i}){base_path.suffix}"`
(line 236).  A path is modelled as its stem and suffix. -/
def candidateName (stem suffix : String) (i : Nat) : String :=
  stem ++ " (" ++ toString i ++ ")" ++ suffix

/-- The `while True` loop of `resolve_unique_filename` (lines 234-239),
with explicit fuel.  `existing` is the (finite) set of paths that exist;
`existing.length + 1` fuel provably suffices, so the `none` case is
unreachable from `resolve_unique_filename`. -/
def searchFrom (stem suffix : String) (existing : List String) :
    Nat → Nat → Option String
  | 0, _ => none
  | fuel + 1, i =>
      if candidateName stem suffix i ∈ existing then
        searchFrom stem suffix existing fuel (i + 1)
      else some (candidateName stem suffix i)

/-- `resolve_unique_filename` (lines 231-239). -/
def resolve_unique_filename (stem suffix : String) (existing : List String) : String :=
  if stem ++ suffix ∈ existing then
    (searchFrom stem suffix existing (existing.length + 1) 2).getD (stem ++ suffix)
  else stem ++ suffix

/-- The decimal digit characters of `n`, most significant first; reference
function for proving `Nat.toDigitsCore` (hence `toString`) injective. -/
def decDigits (n : Nat) : List Char :=
  if n < 10 then [Nat.digitChar n]
  else decDigits (n / 10) ++ [Nat.digitChar (n % 10)]
decreasing_by exact Nat.div_lt_self (by omega) (by omega)

/-- The mesocycle of the spec's end-to-end scenario: two weeks, one Monday
day, exercise 1, sets `[{100,10},{null,8},{110,8}]` then `[{105,8}]`. -/
def mesoC1 : Meso :=
  { name := "Test"
    weeks :=
      [ ⟨[⟨"Monday", 0, none,
            [⟨1, none, [⟨some 100, some 10⟩, ⟨none, some 8⟩, ⟨some 110, some 8⟩]⟩]⟩]⟩,
        ⟨[⟨"Monday", 0, none, [⟨1, none, [⟨some 105, some 8⟩]⟩]⟩]⟩ ] }

/-- C1: the scenario mesocycle yields weekly counts `[2, 1]`, total `3`, and
max-effort record weight `110` with reps `8` for key `(Monday, 1)`. -/
theorem scenario_two_week_summary :
    weekly_counts_vector mesoC1 ("Monday", 1) = [2, 1] ∧
    (weekly_counts_vector mesoC1 ("Monday", 1)).sum = 3 ∧
    (summarize_exercises mesoC1).maxEff ("Monday", 1) = ⟨110, some 8⟩ := by
  refine ⟨?_, ?_, ?_⟩ <;> decide

/-- A null-weight set leaves the whole accumulator state untouched. -/
theorem procSet_none (key : String × Int) (w : Nat) (st : Summary) (s : SetEntry)
    (h : s.weight = none) : procSet key w st s = st := by
  simp [procSet, h]

/-- A non-null-weight set bumps exactly the `(key, w)` weekly counter. -/
theorem procSet_weekly_some (key : String × Int) (w : Nat) (st : Summary) (s : SetEntry)
    (wt : Int) (h : s.weight = some wt) :
    (procSet key w st s).weekly = bumpWeekly st.weekly key w := by
  simp only [procSet, h]
  split <;> rfl

/-- `procSet` never touches `dayMap`. -/
theorem procSet_dayMap (key : String × Int) (w : Nat) (st : Summary) (s : SetEntry) :
    (procSet key w st s).dayMap = st.dayMap := by
  cases h : s.weight with
  | none => rw [procSet_none key w st s h]
  | some wt => simp only [procSet, h]; split <;> rfl

/-- Effect of the per-set loop on the weekly counters: the `(key, w)` cell
grows by the number of non-null-weight sets, all other cells are unchanged. -/
theorem foldl_sets_weekly (key : String × Int) (w : Nat) (q : String × Int) (v : Nat)
    (sets : List SetEntry) : ∀ st : Summary,
    (sets.foldl (procSet key w) st).weekly q v =
      st.weekly q v +
        (if q = key ∧ v = w then (sets.filter (fun s => s.weight.isSome)).length else 0) := by
  induction sets with
  | nil => intro st; simp
  | cons s sets ih =>
      intro st
      rw [List.foldl_cons, ih]
      cases h : s.weight with
      | none =>
          rw [procSet_none key w st s h]
          simp [List.filter_cons, h]
      | some wt =>
          rw [procSet_weekly_some key w st s wt h]
          by_cases hqv : q = key ∧ v = w
          · simp only [List.filter_cons, h, Option.isSome_some, if_true, List.length_cons,
              bumpWeekly, hqv, and_self]
            omega
          · simp [List.filter_cons, h, bumpWeekly, hqv]

/-- The `dayMap` update of `procExercise` does not touch the weekly counters. -/
theorem procExercise_weekly (label : String) (w : Nat) (st : Summary) (e : ExerciseEntry) :
    (procExercise label w st e).weekly =
      (e.sets.foldl (procSet (label, e.exerciseId) w) st).weekly := by
  simp only [procExercise]
  split <;> rfl

/-- Effect of the per-exercise loop of one day on the weekly counters. -/
theorem foldl_exs_weekly (label : String) (w : Nat) (q : String × Int) (v : Nat)
    (exs : List ExerciseEntry) : ∀ st : Summary,
    (exs.foldl (procExercise label w) st).weekly q v =
      st.weekly q v +
        (exs.map (fun e =>
          if q = (label, e.exerciseId) ∧ v = w then weightedSets e else 0)).sum := by
  induction exs with
  | nil => intro st; simp
  | cons e exs ih =>
      intro st
      rw [List.foldl_cons, ih, List.map_cons, List.sum_cons]
      have he : (procExercise label w st e).weekly q v =
          st.weekly q v + (if q = (label, e.exerciseId) ∧ v = w then weightedSets e else 0) := by
        rw [procExercise_weekly, foldl_sets_weekly]
        rfl
      rw [he]
      omega

/-- Effect of the per-day loop of one week on the weekly counters. -/
theorem foldl_days_weekly (w : Nat) (q : String × Int) (v : Nat)
    (days : List Day) : ∀ st : Summary,
    (days.foldl (procDay w) st).weekly q v =
      st.weekly q v +
        (days.map (fun d =>
          (d.exercises.map (fun e =>
            if q = (d.label, e.exerciseId) ∧ v = w then weightedSets e else 0)).sum)).sum := by
  induction days with
  | nil => intro st; simp
  | cons d days ih =>
      intro st
      rw [List.foldl_cons, ih, List.map_cons, List.sum_cons]
      simp only [procDay]
      rw [foldl_exs_weekly]
      omega

/-- Effect of the whole pass on the weekly counters. -/
theorem foldl_weeks_weekly (q : String × Int) (v : Nat)
    (ws : List (Nat × Week)) : ∀ st : Summary,
    (ws.foldl procWeek st).weekly q v =
      st.weekly q v +
        (ws.map (fun p =>
          (p.2.days.map (fun d =>
            (d.exercises.map (fun e =>
              if q = (d.label, e.exerciseId) ∧ v = p.1 then weightedSets e else 0)).sum)).sum)).sum := by
  induction ws with
  | nil => intro st; simp
  | cons p ws ih =>
      intro st
      rw [List.foldl_cons, ih, List.map_cons, List.sum_cons]
      simp only [procWeek]
      rw [foldl_days_weekly]
      omega

/-- The weekly counter of `summarize_exercises` equals the specification-level
count of non-null-weight sets for that key and week. -/
theorem weekly_eq_weightedSetCount (m : Meso) (label : String) (exid : Int) (w : Nat) :
    (summarize_exercises m).weekly (label, exid) w = weightedSetCount m label exid w := by
  rw [summarize_exercises, foldl_weeks_weekly, weightedSetCount]
  simp only [initSummary, Nat.zero_add]
  refine congrArg List.sum (List.map_congr_left (fun p _ => ?_))
  refine congrArg List.sum (List.map_congr_left (fun d _ => ?_))
  refine congrArg List.sum (List.map_congr_left (fun e _ => ?_))
  have hiff : ((label, exid) = (d.label, e.exerciseId) ∧ w = p.1) ↔
      (d.label = label ∧ e.exerciseId = exid ∧ p.1 = w) := by
    rw [Prod.mk.injEq]
    constructor
    · rintro ⟨⟨ha, hb⟩, hc⟩; exact ⟨ha.symm, hb.symm, hc.symm⟩
    · rintro ⟨ha, hb, hc⟩; exact ⟨⟨ha.symm, hb.symm⟩, hc.symm⟩
  rw [if_congr hiff rfl rfl]

/-- C3: the weekly-count vector read off by the renderer over week indices
`1..N` has exactly `N` entries, and any week in which the key has no
non-null-weight set contributes the entry `0`. -/
theorem weekly_vector_length_and_default_zero (m : Meso) (key : String × Int) :
    (weekly_counts_vector m key).length = m.weeks.length ∧
    ∀ w : Nat, 1 ≤ w → w ≤ m.weeks.length →
      weightedSetCount m key.1 key.2 w = 0 →
      (weekly_counts_vector m key)[w - 1]? = some 0 := by
  obtain ⟨label, exid⟩ := key
  constructor
  · simp [weekly_counts_vector]
  · intro w h1 h2 h0
    have hlt : w - 1 < m.weeks.length := by omega
    rw [weekly_counts_vector, List.getElem?_map, List.getElem?_range' 1 1 hlt]
    have hw : 1 + 1 * (w - 1) = w := by omega
    simp only [Option.map, hw]
    simp only [weekly_eq_weightedSetCount]
    simp at h0
    rw [h0]

/-- Witness for C3 at a concrete input: key `(Tuesday, 7)` never occurs in
`mesoC1`, so its first weekly entry is `0`. -/
theorem weekly_vector_length_and_default_zero_witness :
    weightedSetCount mesoC1 "Tuesday" 7 1 = 0 ∧
    (weekly_counts_vector mesoC1 ("Tuesday", 7))[0]? = some 0 :=
  ⟨by decide,
   (weekly_vector_length_and_default_zero mesoC1 ("Tuesday", 7)).2 1 (by decide) (by decide)
     (by decide)⟩

/-- Dropping null-weight sets leaves the per-set fold of `summarize_exercises`
unchanged. -/
theorem foldl_sets_filter (key : String × Int) (w : Nat)
    (sets : List SetEntry) : ∀ st : Summary,
    ((sets.filter (fun s => s.weight.isSome)).foldl (procSet key w) st) =
      sets.foldl (procSet key w) st := by
  induction sets with
  | nil => intro st; rfl
  | cons s sets ih =>
      intro st
      cases h : s.weight with
      | none =>
          rw [List.filter_cons, List.foldl_cons, procSet_none key w st s h]
          simp only [h, Option.isSome_none, Bool.false_eq_true, if_false]
          exact ih st
      | some wt =>
          rw [List.filter_cons]
          simp only [h, Option.isSome_some, if_true]
          rw [List.foldl_cons, List.foldl_cons]
          exact ih (procSet key w st s)

/-- Dropping an exercise entry's null-weight sets does not change its
processing step. -/
theorem procExercise_dropNull (label : String) (w : Nat) (st : Summary) (e : ExerciseEntry) :
    procExercise label w st (dropNullWeightSetsEx e) = procExercise label w st e := by
  simp only [procExercise, dropNullWeightSetsEx]
  rw [foldl_sets_filter]

/-- Dropping a day's null-weight sets does not change its processing step. -/
theorem procDay_dropNull (w : Nat) (st : Summary) (d : Day) :
    procDay w st (dropNullWeightSetsDay d) = procDay w st d := by
  simp only [procDay, dropNullWeightSetsDay, List.foldl_map]
  exact List.foldl_ext _ _ st (fun st' e _ => procExercise_dropNull d.label w st' e)

/-- Dropping a week's null-weight sets does not change its processing step. -/
theorem procWeek_dropNull (st : Summary) (n : Nat) (wk : Week) :
    procWeek st (n, dropNullWeightSetsWeek wk) = procWeek st (n, wk) := by
  simp only [procWeek, dropNullWeightSetsWeek, List.foldl_map]
  exact List.foldl_ext _ _ st (fun st' d _ => procDay_dropNull n st' d)

/-- The whole pass is unchanged by dropping null-weight sets, from any start
index and state. -/
theorem foldl_weeks_dropNull (ws : List Week) : ∀ (n : Nat) (st : Summary),
    (List.enumFrom n (ws.map dropNullWeightSetsWeek)).foldl procWeek st =
      (List.enumFrom n ws).foldl procWeek st := by
  induction ws with
  | nil => intro n st; rfl
  | cons wk ws ih =>
      intro n st
      rw [List.map_cons, List.enumFrom_cons, List.enumFrom_cons, List.foldl_cons,
        List.foldl_cons, procWeek_dropNull]
      exact ih (n + 1) (procWeek st (n, wk))

/-- C2: sets with null weight contribute nothing to the aggregation: deleting
every null-weight set from a mesocycle leaves the entire result of
`summarize_exercises` (weekly counts, max-effort records and day order)
unchanged, so such a set never increments a weekly count nor updates a stored
max-effort record. -/
theorem null_weight_sets_do_not_affect_summary (m : Meso) :
    summarize_exercises (dropNullWeightSets m) = summarize_exercises m := by
  rw [summarize_exercises, summarize_exercises, dropNullWeightSets]
  exact foldl_weeks_dropNull m.weeks 1 initSummary

/-- Effect of the chart's per-set loop: every set bumps the `(w, g)` cell,
independently of the set's contents. -/
theorem foldl_sets_chart (w : Nat) (g : Int) (v : Nat) (gq : Int)
    (sets : List SetEntry) : ∀ f : Nat → Int → Nat,
    (sets.foldl (fun acc _ => bumpChart acc w g) f) v gq =
      f v gq + (if v = w ∧ gq = g then sets.length else 0) := by
  induction sets with
  | nil => intro f; simp
  | cons s sets ih =>
      intro f
      rw [List.foldl_cons, ih]
      by_cases hqv : v = w ∧ gq = g
      · simp only [bumpChart, hqv, and_self, if_true, List.length_cons]
        omega
      · simp [bumpChart, hqv]

/-- Effect of one chart entry step: an entry contributes the length of its
whole set list when its own `muscleGroupId` equals the queried group. -/
theorem chartExercise_apply (w : Nat) (f : Nat → Int → Nat) (e : ExerciseEntry)
    (v : Nat) (gq : Int) :
    chartExercise w f e v gq =
      f v gq + (if e.muscleGroupId = some gq ∧ w = v then e.sets.length else 0) := by
  cases h : e.muscleGroupId with
  | none => simp [chartExercise, h]
  | some g =>
      simp only [chartExercise, h]
      rw [foldl_sets_chart]
      have hiff : (v = w ∧ gq = g) ↔ ((some g : Option Int) = some gq ∧ w = v) := by
        rw [Option.some.injEq]
        constructor
        · rintro ⟨ha, hb⟩; exact ⟨hb.symm, ha.symm⟩
        · rintro ⟨ha, hb⟩; exact ⟨hb.symm, ha.symm⟩
      rw [if_congr hiff rfl rfl]

/-- Effect of the chart's per-exercise loop of one day. -/
theorem foldl_exs_chart (w : Nat) (v : Nat) (gq : Int)
    (exs : List ExerciseEntry) : ∀ f : Nat → Int → Nat,
    (exs.foldl (chartExercise w) f) v gq =
      f v gq +
        (exs.map (fun e =>
          if e.muscleGroupId = some gq ∧ w = v then e.sets.length else 0)).sum := by
  induction exs with
  | nil => intro f; simp
  | cons e exs ih =>
      intro f
      rw [List.foldl_cons, ih, List.map_cons, List.sum_cons, chartExercise_apply]
      omega

/-- Effect of the chart's per-day loop of one week. -/
theorem foldl_days_chart (w : Nat) (v : Nat) (gq : Int)
    (days : List Day) : ∀ f : Nat → Int → Nat,
    (days.foldl (chartDay w) f) v gq =
      f v gq +
        (days.map (fun d =>
          (d.exercises.map (fun e =>
            if e.muscleGroupId = some gq ∧ w = v then e.sets.length else 0)).sum)).sum := by
  induction days with
  | nil => intro f; simp
  | cons d days ih =>
      intro f
      rw [List.foldl_cons, ih, List.map_cons, List.sum_cons]
      simp only [chartDay]
      rw [foldl_exs_chart]
      omega

/-- Effect of the whole chart pass. -/
theorem foldl_weeks_chart (v : Nat) (gq : Int)
    (ws : List (Nat × Week)) : ∀ f : Nat → Int → Nat,
    (ws.foldl chartWeek f) v gq =
      f v gq +
        (ws.map (fun p =>
          (p.2.days.map (fun d =>
            (d.exercises.map (fun e =>
              if e.muscleGroupId = some gq ∧ p.1 = v then e.sets.length else 0)).sum)).sum)).sum := by
  induction ws with
  | nil => intro f; simp
  | cons p ws ih =>
      intro f
      rw [List.foldl_cons, ih, List.map_cons, List.sum_cons]
      simp only [chartWeek]
      rw [foldl_days_chart]
      omega

/-- The chart's `weekly_sets` table equals the specification-level chart
count: all sets of matching entries, with no weight condition. -/
theorem weekly_sets_eq_chartSetCount (weeks : List Week) (w : Nat) (g : Int) :
    weekly_sets weeks w g = chartSetCount weeks w g := by
  rw [weekly_sets, foldl_weeks_chart, chartSetCount]
  exact Nat.zero_add _

/-- Generic transport of a per-week congruence through the enumerated fold of
the chart pass. -/
theorem foldl_weeks_chart_congr (F : Week → Week)
    (hF : ∀ (f : Nat → Int → Nat) (n : Nat) (wk : Week),
      chartWeek f (n, F wk) = chartWeek f (n, wk))
    (ws : List Week) : ∀ (n : Nat) (f : Nat → Int → Nat),
    (List.enumFrom n (ws.map F)).foldl chartWeek f =
      (List.enumFrom n ws).foldl chartWeek f := by
  induction ws with
  | nil => intro n f; rfl
  | cons wk ws ih =>
      intro n f
      rw [List.map_cons, List.enumFrom_cons, List.enumFrom_cons, List.foldl_cons,
        List.foldl_cons, hF]
      exact ih (n + 1) (chartWeek f (n, wk))

/-- Rewriting set weights does not change a chart entry step. -/
theorem chartExercise_mapW (f0 : Option Int → Option Int) (w : Nat)
    (f : Nat → Int → Nat) (e : ExerciseEntry) :
    chartExercise w f (mapSetWeightsEx f0 e) = chartExercise w f e := by
  cases h : e.muscleGroupId with
  | none => simp [chartExercise, mapSetWeightsEx, h]
  | some g => simp [chartExercise, mapSetWeightsEx, h, List.foldl_map]

/-- Rewriting set weights does not change a chart day step. -/
theorem chartDay_mapW (f0 : Option Int → Option Int) (w : Nat)
    (f : Nat → Int → Nat) (d : Day) :
    chartDay w f (mapSetWeightsDay f0 d) = chartDay w f d := by
  simp only [chartDay, mapSetWeightsDay, List.foldl_map]
  exact List.foldl_ext _ _ f (fun f' e _ => chartExercise_mapW f0 w f' e)

/-- Rewriting set weights does not change a chart week step. -/
theorem chartWeek_mapW (f0 : Option Int → Option Int) (f : Nat → Int → Nat)
    (n : Nat) (wk : Week) :
    chartWeek f (n, mapSetWeightsWeek f0 wk) = chartWeek f (n, wk) := by
  simp only [chartWeek, mapSetWeightsWeek, List.foldl_map]
  exact List.foldl_ext _ _ f (fun f' d _ => chartDay_mapW f0 n f' d)

/-- C7: the chart block counts every set of an entry toward the entry's
muscle-group weekly total regardless of the set's weight — the count is
invariant under an arbitrary rewrite of all weights (in particular nulling
them all) — unlike `summarize_exercises`, whose weekly counter equals
`weightedSetCount`, which counts only sets whose weight is non-null. -/
theorem chart_counts_all_sets_summary_counts_weighted
    (weeks : List Week) (f0 : Option Int → Option Int) (w : Nat) (g : Int)
    (m : Meso) (label : String) (exid : Int) (v : Nat) :
    weekly_sets (mapSetWeights f0 weeks) w g = weekly_sets weeks w g ∧
    (summarize_exercises m).weekly (label, exid) v = weightedSetCount m label exid v := by
  constructor
  · rw [weekly_sets, weekly_sets, mapSetWeights]
    rw [foldl_weeks_chart_congr (mapSetWeightsWeek f0) (fun f n wk => chartWeek_mapW f0 f n wk)]
  · exact weekly_eq_weightedSetCount m label exid v

/-- A chart entry step with a null `muscleGroupId` is skipped (`continue`). -/
theorem chartExercise_none (w : Nat) (f : Nat → Int → Nat) (e : ExerciseEntry)
    (h : e.muscleGroupId = none) : chartExercise w f e = f := by
  simp [chartExercise, h]

/-- Filtering out the null-`muscleGroupId` entries does not change the chart's
per-exercise fold. -/
theorem foldl_exs_filterMG (w : Nat) (exs : List ExerciseEntry) :
    ∀ f : Nat → Int → Nat,
    ((exs.filter (fun e => e.muscleGroupId.isSome)).foldl (chartExercise w) f) =
      exs.foldl (chartExercise w) f := by
  induction exs with
  | nil => intro f; rfl
  | cons e exs ih =>
      intro f
      cases h : e.muscleGroupId with
      | none =>
          rw [List.filter_cons, List.foldl_cons, chartExercise_none w f e h]
          simp only [h, Option.isSome_none, Bool.false_eq_true, if_false]
          exact ih f
      | some g =>
          rw [List.filter_cons]
          simp only [h, Option.isSome_some, if_true]
          rw [List.foldl_cons, List.foldl_cons]
          exact ih (chartExercise w f e)

/-- Dropping null-`muscleGroupId` entries does not change a chart day step. -/
theorem chartDay_dropMG (w : Nat) (f : Nat → Int → Nat) (d : Day) :
    chartDay w f (dropNullMGEntriesDay d) = chartDay w f d := by
  simp only [chartDay, dropNullMGEntriesDay]
  exact foldl_exs_filterMG w d.exercises f

/-- Dropping null-`muscleGroupId` entries does not change a chart week step. -/
theorem chartWeek_dropMG (f : Nat → Int → Nat) (n : Nat) (wk : Week) :
    chartWeek f (n, dropNullMGEntriesWeek wk) = chartWeek f (n, wk) := by
  simp only [chartWeek, dropNullMGEntriesWeek, List.foldl_map]
  exact List.foldl_ext _ _ f (fun f' d _ => chartDay_dropMG n f' d)

/-- C10: the chart aggregation reads each entry's own `muscleGroupId` field:
entries whose own field is absent/null are skipped entirely (removing them
changes nothing), and the total for `(w, g)` is exactly the sum of the set
counts of the entries whose own field equals `g` — the exercise lookup is not
consulted (`weekly_sets` does not even take it as an argument). -/
theorem chart_uses_entry_muscle_group (weeks : List Week) (w : Nat) (g : Int) :
    weekly_sets (dropNullMGEntries weeks) w g = weekly_sets weeks w g ∧
    weekly_sets weeks w g = chartSetCount weeks w g := by
  constructor
  · rw [weekly_sets, weekly_sets, dropNullMGEntries]
    rw [foldl_weeks_chart_congr dropNullMGEntriesWeek (fun f n wk => chartWeek_dropMG f n wk)]
  · exact weekly_sets_eq_chartSetCount weeks w g

/-- C6: a muscle-group ID that is null, zero, or outside `1..len(map)` always
renders as the placeholder `"[[MuscleGroup {id}]]"` with the raw ID
substituted (`str(None)` is `"None"`), in either map representation; this is
the shared label expression of the per-day sections (line 100) and the chart
rows (lines 128-129). -/
theorem invalid_mg_id_renders_placeholder (mgm : MGMap) (mg_id : Option Int)
    (h : mg_id = none ∨ ∃ i : Int, mg_id = some i ∧ (i < 1 ∨ (mgLen mgm : Int) < i)) :
    mg_label mgm mg_id = some ("[[MuscleGroup " ++ pyOptIntStr mg_id ++ "]]") := by
  rcases h with h | ⟨i, rfl, hi⟩
  · subst h; rfl
  · rw [mg_label, if_neg]
    rintro ⟨h1, h2⟩
    rcases hi with hi | hi <;> omega

/-- Witness for C6: ID `13` is outside the 12-entry default map and renders
as `"[[MuscleGroup 13]]"`. -/
theorem invalid_mg_id_renders_placeholder_witness :
    mg_label (MGMap.dense DEFAULT_MUSCLE_GROUP_MAP) (some 13) =
      some ("[[MuscleGroup " ++ pyOptIntStr (some 13) ++ "]]") :=
  invalid_mg_id_renders_placeholder (MGMap.dense DEFAULT_MUSCLE_GROUP_MAP) (some 13)
    (Or.inr ⟨13, rfl, Or.inr (by decide)⟩)

/-- C5 is false on the code: for the sparse mapping `{"5": "[[Chest]]"}` and
ID `5`, direct key lookup (the spec's stated policy) yields `"[[Chest]]"`,
but the code's label expression yields the placeholder `"[[MuscleGroup 5]]"`
— it never performs a direct key lookup. -/
theorem sparse_map_no_direct_lookup_counterexample :
    specDirectKeyLookup [("5", "[[Chest]]")] 5 = some "[[Chest]]" ∧
    mg_label (MGMap.sparse [("5", "[[Chest]]")]) (some 5) = some "[[MuscleGroup 5]]" ∧
    mg_label (MGMap.sparse [("5", "[[Chest]]")]) (some 5) ≠
      specDirectKeyLookup [("5", "[[Chest]]")] 5 := by
  refine ⟨?_, ?_, ?_⟩ <;> decide

/-- C5 amended: the label expression always subscripts positionally with
`mg_id - 1` under the guard `0 < mg_id <= len(map)`.  On a sparse
(string-keyed) mapping this never performs a direct key lookup of the ID:
when the guard passes, the int subscript of the string-keyed dict raises
`KeyError` (modelled `none`); when it fails, the placeholder is rendered. -/
theorem sparse_map_positional_subscript (kvs : List (String × String)) (i : Int) :
    mg_label (MGMap.sparse kvs) (some i) =
      if 0 < i ∧ i ≤ (kvs.length : Int) then none
      else some ("[[MuscleGroup " ++ toString i ++ "]]") := by
  simp only [mg_label, mgLen, pySubscript, pyOptIntStr]

/-- C4 is false on the code: a null weight is rendered as the literal cell
`None` (Python default stringification), not as an empty cell. -/
theorem null_cells_render_none_counterexample :
    format_training_day ⟨"Monday", 0, none, [⟨1, none, [⟨none, some 8⟩]⟩]⟩ 0 []
        (MGMap.dense DEFAULT_MUSCLE_GROUP_MAP) =
      some ("## Week 1 - Day 1 - Monday ([[TBD]])\n\n### [[MuscleGroup None]] — " ++
        "[[Exercise 1]]\n\n[[Unknown]]\n\n| Weight | Reps |\n| ------ | ---- |\n" ++
        "| None | 8 |\n\n---\n\n") ∧
    setRow ⟨none, some 8⟩ = "| None | 8 |\n" ∧
    setRow ⟨none, some 8⟩ ≠ "|  | 8 |\n" := by
  refine ⟨?_, ?_, ?_⟩ <;> decide

/-- C4 amended: in the per-day Weight|Reps table a null weight or reps cell
is rendered as the literal string `None`, not as an empty cell. -/
theorem null_cells_render_literal_none (s : SetEntry) :
    (s.weight = none → setRow s = "| None | " ++ pyOptIntStr s.reps ++ " |\n") ∧
    (s.reps = none → setRow s = "| " ++ pyOptIntStr s.weight ++ " | None |\n") := by
  constructor <;> intro h <;> rw [setRow, h] <;> simp only [String.append_assoc] <;> rfl

/-- Witness for the amended C4 at the all-null set. -/
theorem null_cells_render_literal_none_witness :
    setRow ⟨none, none⟩ = "| None | " ++ pyOptIntStr (none : Option Int) ++ " |\n" :=
  (null_cells_render_literal_none ⟨none, none⟩).1 rfl

/-- Unfolding `decDigits` below 10. -/
theorem decDigits_small {n : Nat} (h : n < 10) : decDigits n = [Nat.digitChar n] := by
  rw [decDigits, if_pos h]

/-- Unfolding `decDigits` at or above 10. -/
theorem decDigits_large {n : Nat} (h : ¬n < 10) :
    decDigits n = decDigits (n / 10) ++ [Nat.digitChar (n % 10)] := by
  rw [decDigits, if_neg h]

/-- Core's fuelled digit printer agrees with `decDigits` when the fuel
exceeds the number. -/
theorem toDigitsCore_eq_decDigits :
    ∀ (fuel n : Nat) (ds : List Char), n < fuel →
      Nat.toDigitsCore 10 fuel n ds = decDigits n ++ ds := by
  intro fuel
  induction fuel with
  | zero => intro n ds h; omega
  | succ fuel ih =>
      intro n ds h
      by_cases h10 : n < 10
      · have hdiv : n / 10 = 0 := Nat.div_eq_of_lt h10
        have hmod : n % 10 = n := Nat.mod_eq_of_lt h10
        simp only [Nat.toDigitsCore, hdiv, if_true, hmod]
        rw [decDigits_small h10]
        rfl
      · have hdiv : n / 10 ≠ 0 := by
          intro h0
          have := Nat.div_eq_zero_iff (by omega : 0 < 10) |>.mp h0
          omega
        have hlt : n / 10 < fuel := by
          have := Nat.div_lt_self (by omega : 0 < n) (by omega : 1 < 10)
          omega
        simp only [Nat.toDigitsCore, hdiv, if_false]
        rw [ih (n / 10) (Nat.digitChar (n % 10) :: ds) hlt]
        rw [decDigits_large h10]
        rw [List.append_assoc, List.singleton_append]

/-- `toString` of a natural number, as character data, is `decDigits`. -/
theorem natToString_data (n : Nat) : (toString n).data = decDigits n := by
  show (Nat.repr n).data = decDigits n
  rw [Nat.repr, Nat.toDigits, toDigitsCore_eq_decDigits (n + 1) n [] (Nat.lt_succ_self n),
    List.append_nil]
  rfl

/-- `Nat.digitChar` is injective below 10. -/
theorem digitChar_inj : ∀ a : Nat, a < 10 → ∀ b : Nat, b < 10 →
    Nat.digitChar a = Nat.digitChar b → a = b := by decide

/-- `decDigits` never returns the empty list. -/
theorem decDigits_ne_nil (n : Nat) : decDigits n ≠ [] := by
  rw [decDigits]
  split
  · exact List.cons_ne_nil _ _
  · exact List.append_ne_nil_of_right_ne_nil _ (List.cons_ne_nil _ _)

/-- `decDigits` is injective. -/
theorem decDigits_inj : ∀ m n : Nat, decDigits m = decDigits n → m = n := by
  intro m
  induction m using Nat.strong_induction_on with
  | _ m ih =>
      intro n h
      by_cases hm : m < 10 <;> by_cases hn : n < 10
      · rw [decDigits_small hm, decDigits_small hn] at h
        exact digitChar_inj m hm n hn (List.cons.injEq .. ▸ h).1
      · rw [decDigits_small hm, decDigits_large hn] at h
        have hlen := congrArg List.length h
        simp only [List.length_cons, List.length_nil, List.length_append] at hlen
        have : decDigits (n / 10) = [] := List.length_eq_zero.mp (by omega)
        exact absurd this (decDigits_ne_nil _)
      · rw [decDigits_large hm, decDigits_small hn] at h
        have hlen := congrArg List.length h
        simp only [List.length_cons, List.length_nil, List.length_append] at hlen
        have : decDigits (m / 10) = [] := List.length_eq_zero.mp (by omega)
        exact absurd this (decDigits_ne_nil _)
      · rw [decDigits_large hm, decDigits_large hn] at h
        have hpair := List.append_inj' h rfl
        have hdiv : m / 10 = n / 10 := ih (m / 10)
          (Nat.div_lt_self (by omega) (by omega)) (n / 10) hpair.1
        have hmod : m % 10 = n % 10 :=
          digitChar_inj (m % 10) (Nat.mod_lt m (by omega)) (n % 10)
            (Nat.mod_lt n (by omega)) (List.cons.injEq .. ▸ hpair.2).1
        omega

/-- `toString` on naturals is injective. -/
theorem natToString_inj (m n : Nat) (h : toString m = toString n) : m = n :=
  decDigits_inj m n (by rw [← natToString_data, ← natToString_data, h])

/-- The collision candidates are pairwise distinct. -/
theorem candidateName_inj (stem suffix : String) (i j : Nat)
    (h : candidateName stem suffix i = candidateName stem suffix j) : i = j := by
  have hd := congrArg String.data h
  simp only [candidateName, String.data_append] at hd
  have h1 := List.append_cancel_right hd
  have h2 := List.append_cancel_right h1
  have h3 := List.append_cancel_left h2
  exact natToString_inj i j (String.ext h3)

/-- Pigeonhole: among `existing.length + 1` successive candidates starting at
index 2, at least one does not exist. -/
theorem exists_free_candidate (stem suffix : String) (existing : List String) :
    ∃ j, j < existing.length + 1 ∧ candidateName stem suffix (2 + j) ∉ existing := by
  by_contra hcon
  push_neg at hcon
  have hmap : ∀ j ∈ Finset.range (existing.length + 1),
      candidateName stem suffix (2 + j) ∈ existing.toFinset := by
    intro j hj
    rw [List.mem_toFinset]
    exact hcon j (Finset.mem_range.mp hj)
  have hinj : Set.InjOn (fun j => candidateName stem suffix (2 + j))
      (Finset.range (existing.length + 1)) := by
    intro a _ b _ hab
    have := candidateName_inj stem suffix (2 + a) (2 + b) hab
    omega
  have hcard := Finset.card_le_card_of_injOn _ hmap hinj
  rw [Finset.card_range] at hcard
  have := List.toFinset_card_le existing
  omega

/-- Correctness of the fuelled loop: given some free candidate within the
fuel window, the loop returns the first free candidate at or after `i`. -/
theorem searchFrom_spec (stem suffix : String) (existing : List String) :
    ∀ fuel i : Nat, (∃ j, j < fuel ∧ candidateName stem suffix (i + j) ∉ existing) →
    ∃ k, i ≤ k ∧
      searchFrom stem suffix existing fuel i = some (candidateName stem suffix k) ∧
      candidateName stem suffix k ∉ existing ∧
      ∀ j, i ≤ j → j < k → candidateName stem suffix j ∈ existing := by
  intro fuel
  induction fuel with
  | zero =>
      rintro i ⟨j, hj, _⟩
      omega
  | succ fuel ih =>
      intro i hex
      by_cases hmem : candidateName stem suffix i ∈ existing
      · have hex' : ∃ j, j < fuel ∧ candidateName stem suffix (i + 1 + j) ∉ existing := by
          obtain ⟨j, hj, hfree⟩ := hex
          cases j with
          | zero => exact absurd hmem (by simpa using hfree)
          | succ j' =>
              refine ⟨j', by omega, ?_⟩
              have harg : i + 1 + j' = i + (j' + 1) := by omega
              rw [harg]
              exact hfree
        obtain ⟨k, hk1, hk2, hk3, hk4⟩ := ih (i + 1) hex'
        refine ⟨k, by omega, ?_, hk3, ?_⟩
        · simp only [searchFrom, if_pos hmem]
          exact hk2
        · intro j hj1 hj2
          rcases Nat.eq_or_lt_of_le hj1 with heq | hlt
          · rw [← heq]; exact hmem
          · exact hk4 j (by omega) hj2
      · refine ⟨i, Nat.le_refl i, ?_, hmem, fun j hj1 hj2 => absurd (by omega : i < i) (by omega)⟩
        simp only [searchFrom, if_neg hmem]

/-- C8: `resolve_unique_filename` returns the base path when it does not
exist; otherwise it returns the candidate with the smallest index `i ≥ 2`
whose path does not exist; in either case the returned path never names an
existing file. -/
theorem resolve_unique_filename_spec (stem suffix : String) (existing : List String) :
    (stem ++ suffix ∉ existing →
      resolve_unique_filename stem suffix existing = stem ++ suffix) ∧
    (stem ++ suffix ∈ existing →
      ∃ i, 2 ≤ i ∧
        resolve_unique_filename stem suffix existing = candidateName stem suffix i ∧
        candidateName stem suffix i ∉ existing ∧
        ∀ j, 2 ≤ j → j < i → candidateName stem suffix j ∈ existing) ∧
    resolve_unique_filename stem suffix existing ∉ existing := by
  by_cases hmem : stem ++ suffix ∈ existing
  · obtain ⟨j, hj, hfree⟩ := exists_free_candidate stem suffix existing
    obtain ⟨k, hk1, hk2, hk3, hk4⟩ :=
      searchFrom_spec stem suffix existing (existing.length + 1) 2 ⟨j, hj, hfree⟩
    have hres : resolve_unique_filename stem suffix existing = candidateName stem suffix k := by
      rw [resolve_unique_filename, if_pos hmem, hk2]
      rfl
    exact ⟨fun h => absurd hmem h, fun _ => ⟨k, hk1, hres, hk3, hk4⟩, hres ▸ hk3⟩
  · have hres : resolve_unique_filename stem suffix existing = stem ++ suffix := by
      rw [resolve_unique_filename, if_neg hmem]
    exact ⟨fun _ => hres, fun h => absurd h hmem, hres ▸ hmem⟩

/-- Witness for C8: with `Foo.md` and `Foo (2).md` both existing, the
resolved path exists in neither, and is the least free candidate. -/
theorem resolve_unique_filename_spec_witness :
    (resolve_unique_filename "Foo" ".md" ["Foo.md", "Foo (2).md"] ∉
        ["Foo.md", "Foo (2).md"]) ∧
    (∃ i, 2 ≤ i ∧
      resolve_unique_filename "Foo" ".md" ["Foo.md", "Foo (2).md"] =
        candidateName "Foo" ".md" i ∧
      candidateName "Foo" ".md" i ∉ ["Foo.md", "Foo (2).md"] ∧
      ∀ j, 2 ≤ j → j < i → candidateName "Foo" ".md" j ∈ ["Foo.md", "Foo (2).md"]) :=
  ⟨(resolve_unique_filename_spec "Foo" ".md" ["Foo.md", "Foo (2).md"]).2.2,
   (resolve_unique_filename_spec "Foo" ".md" ["Foo.md", "Foo (2).md"]).2.1 (by decide)⟩

/-- C9: with the clock passed explicitly, `generate_mesocycle_markdown` is a
pure function, so two runs with the same frozen clock value are byte-identical
by definition; and for any two clock values the outputs share one clock-free
`body`, differing only in the frontmatter substitution of the timestamps
(`created`/`updated` are both `now`). -/
theorem markdown_depends_on_clock_only_in_frontmatter
    (m : Meso) (src : String) (lookup : List (Int × ExInfo)) (tmpl : String)
    (mgm : MGMap) (t1 t2 : String) :
    (generate_mesocycle_markdown m src lookup tmpl mgm t1 = none ∧
      generate_mesocycle_markdown m src lookup tmpl mgm t2 = none) ∨
    ∃ body : String,
      generate_mesocycle_markdown m src lookup tmpl mgm t1 =
        some (frontmatterOf tmpl (m.name.replace " " "_") t1 t1 src ++ body) ∧
      generate_mesocycle_markdown m src lookup tmpl mgm t2 =
        some (frontmatterOf tmpl (m.name.replace " " "_") t2 t2 src ++ body) := by
  cases h1 : build_summary_chart_block m.weeks mgm with
  | none =>
      left
      constructor <;> simp [generate_mesocycle_markdown, h1]
  | some c =>
      cases h2 : daySections m lookup mgm with
      | none =>
          left
          constructor <;> simp [generate_mesocycle_markdown, h1, h2]
      | some d =>
          right
          refine ⟨"\n\n" ++ String.intercalate "\n" (summary_lines m lookup) ++ "\n\n" ++
            c ++ "\n" ++ d, ?_, ?_⟩ <;>
            simp [generate_mesocycle_markdown, h1, h2, String.append_assoc]

end RPStrength
